import Mathlib

/-!
Verification of the two client scripts of Yt-Discord-Verifier
(src/Id.js and src/unnamed/part_000).

Each script binds a copy button and a continue button to a text input.
We embed the two event handlers as pure functions, the page as a state
record, and user interaction as a list of events folded over a step
function.  JavaScript `null` is embedded as `Option.none`; the
asynchronous clipboard write is embedded by its outcome (resolved,
rejected, or API absent — the latter two both land in the catch branch).
-/

/-- Outcome of the awaited `navigator.clipboard.writeText` call.
`rejected` is a promise rejection; `apiAbsent` is the synchronous
TypeError thrown when the Clipboard API is missing.  Both are caught by
the surrounding try/catch, so both reach the catch branch. -/
inductive ClipOutcome
  | resolved
  | rejected
  | apiAbsent
  deriving DecidableEq

/-- Page state visible to the scripts: the resolved target URL, the text
input's current value, the copy button's label, the continue button's
disabled flag, whether the input's text is selected, the clipboard
contents, how many times `document.execCommand` was invoked with the
copy command, and `location.href` once a navigation happened. -/
structure PageState where
  target : String
  inputValue : String
  copyLabel : String
  contDisabled : Bool
  selected : Bool
  clipboard : Option String
  execCopyAttempts : Nat
  nav : Option String

/-- User-generated events: editing the text field, clicking the copy
button (with the clipboard outcome and whether the legacy copy command
would succeed), and clicking the continue button. -/
inductive Event
  | setInput (v : String)
  | clickCopy (o : ClipOutcome) (legacyOk : Bool)
  | clickContinue
  deriving DecidableEq

/- ### encodeURIComponent

Embedding of the ECMAScript `encodeURIComponent` builtin: characters in
the unreserved set `A-Z a-z 0-9 - _ . ! ~ * ' ( )` pass through;
every other character is UTF-8 encoded and each byte written as `%XX`
with uppercase hexadecimal digits.  Lean strings are sequences of
Unicode scalar values, which matches the builtin's behaviour on all
well-formed JavaScript strings (a surrogate pair encodes as one
four-byte scalar). -/

/-- The non-alphanumeric characters left unescaped by
`encodeURIComponent`.  `Char.ofNat 39` is the apostrophe. -/
def uriMarks : List Char :=
  ['-', '_', '.', '!', '~', '*', Char.ofNat 39, '(', ')']

/-- Whether `encodeURIComponent` leaves the character unescaped. -/
def isUnescaped (c : Char) : Bool :=
  (65 ≤ c.toNat && c.toNat ≤ 90) || (97 ≤ c.toNat && c.toNat ≤ 122) ||
    (48 ≤ c.toNat && c.toNat ≤ 57) || uriMarks.contains c

/-- The sixteen uppercase hexadecimal digit characters. -/
def hexChars : List Char :=
  ['0', '1', '2', '3', '4', '5', '6', '7', '8', '9', 'A', 'B', 'C', 'D', 'E', 'F']

/-- Uppercase hexadecimal digit for a value below 16. -/
def hexDigit (n : Nat) : Char := hexChars.getD n '0'

/-- Percent-encoding of one byte: a percent sign and two hex digits. -/
def percentByte (b : Nat) : List Char :=
  ['%', hexDigit (b / 16), hexDigit (b % 16)]

/-- UTF-8 encoding of one Unicode scalar value, as a list of bytes. -/
def utf8Bytes (c : Char) : List Nat :=
  let n := c.toNat
  if n < 128 then [n]
  else if n < 2048 then [192 + n / 64, 128 + n % 64]
  else if n < 65536 then [224 + n / 4096, 128 + n / 64 % 64, 128 + n % 64]
  else [240 + n / 262144, 128 + n / 4096 % 64, 128 + n / 64 % 64, 128 + n % 64]

/-- Encoding of a single character under `encodeURIComponent`. -/
def encodeChar (c : Char) : List Char :=
  if isUnescaped c then [c] else ((utf8Bytes c).map percentByte).flatten

/-- The `encodeURIComponent` builtin itself. -/
def encodeURIComponent (s : String) : String :=
  ⟨(s.data.map encodeChar).flatten⟩

/- ### Target resolution -/

/-- src/Id.js lines 5-6:
`scriptTag = document.currentScript || querySelector(...)` and
`TARGET = scriptTag ? scriptTag.getAttribute('data-target') : ""`.
The outer Option is whether a script tag was found; the inner Option is
the attribute's value (`none` embeds the JavaScript `null` that
`getAttribute` returns for a missing attribute).  Note the result can be
`none` (null): there is no `|| ""` in this variant. -/
def resolveTargetA (scriptTag : Option (Option String)) : Option String :=
  match scriptTag with
  | none => some ""
  | some attr => attr

/-- src/unnamed/part_000 line 5:
`TARGET = document.currentScript.getAttribute('data-target') || ""`.
`null` and the empty string are both falsy, so both yield `""`. -/
def resolveTargetB (attr : Option String) : String :=
  match attr with
  | none => ""
  | some s => if s = "" then "" else s

/- ### Continue handlers -/

/-- src/Id.js lines 22-23: the destination URL built by the continue
handler.  JavaScript `TARGET.includes('?')` for the one-character
argument is exactly membership of the character in the string. -/
def destUrlA (target v : String) : String :=
  let sep := if target.data.contains '?' then "&" else "?"
  target ++ sep ++ "discord_id=" ++ encodeURIComponent v

/-- src/unnamed/part_000 lines 20-21: the destination URL built by the
continue handler of the second variant. -/
def destUrlB (target v : String) : String :=
  let sep := if target.data.contains '?' then "&" else "?"
  target ++ sep ++ "discord_id=" ++ encodeURIComponent v

/-- src/Id.js lines 21-24 with the resolved TARGET possibly null: when
TARGET is null, `TARGET.includes` throws a TypeError and the handler
aborts before assigning `location.href`, so no navigation occurs
(`none`); otherwise the handler navigates to the destination URL. -/
def contClickA (target : Option String) (v : String) : Option String :=
  match target with
  | none => none
  | some t => some (destUrlA t v)

/-- src/unnamed/part_000 lines 19-22: the continue click always
navigates (TARGET is always a string in this variant). -/
def contClickB (target : String) (v : String) : String :=
  destUrlB target v

/- ### Copy handlers -/

/-- src/Id.js lines 8-19: on a resolved clipboard write, the input value
is on the clipboard and the label becomes 'Copied!'; on rejection or a
missing API the catch branch selects the input's text, invokes the
legacy `document.execCommand('copy')` (which copies the selection when
it succeeds), and sets the label to 'Copied (fallback)!'.  Both paths
then clear the continue button's disabled flag. -/
def copyStepA (o : ClipOutcome) (legacyOk : Bool) (st : PageState) : PageState :=
  match o with
  | ClipOutcome.resolved =>
      { st with clipboard := some st.inputValue,
                copyLabel := "Copied!",
                contDisabled := false }
  | ClipOutcome.rejected | ClipOutcome.apiAbsent =>
      { st with selected := true,
                execCopyAttempts := st.execCopyAttempts + 1,
                clipboard := if legacyOk then some st.inputValue else st.clipboard,
                copyLabel := "Copied (fallback)!",
                contDisabled := false }

/-- src/unnamed/part_000 lines 7-17: on a resolved clipboard write the
input value is on the clipboard and the label becomes 'Copied!'; the
catch branch only selects the input's text and sets the label to
'Select & copy' — it never invokes the legacy copy command.  Both
branches clear the continue button's disabled flag. -/
def copyStepB (o : ClipOutcome) (st : PageState) : PageState :=
  match o with
  | ClipOutcome.resolved =>
      { st with clipboard := some st.inputValue,
                copyLabel := "Copied!",
                contDisabled := false }
  | ClipOutcome.rejected | ClipOutcome.apiAbsent =>
      { st with selected := true,
                copyLabel := "Select & copy",
                contDisabled := false }

/- ### Event step machines -/

/-- One user event against src/Id.js.  Once a navigation happened the
page has unloaded and nothing further changes. -/
def stepA (st : PageState) (e : Event) : PageState :=
  if st.nav.isSome then st
  else
    match e with
    | Event.setInput v => { st with inputValue := v }
    | Event.clickCopy o k => copyStepA o k st
    | Event.clickContinue => { st with nav := some (destUrlA st.target st.inputValue) }

/-- One user event against src/unnamed/part_000. -/
def stepB (st : PageState) (e : Event) : PageState :=
  if st.nav.isSome then st
  else
    match e with
    | Event.setInput v => { st with inputValue := v }
    | Event.clickCopy o _ => copyStepB o st
    | Event.clickContinue => { st with nav := some (destUrlB st.target st.inputValue) }

/-- A sequence of user events against src/Id.js. -/
def runA (st : PageState) (evs : List Event) : PageState :=
  evs.foldl stepA st

/-- A sequence of user events against src/unnamed/part_000. -/
def runB (st : PageState) (evs : List Event) : PageState :=
  evs.foldl stepB st

/-- Modelled from the spec: the hosting HTML page is not under src/, so
the initial UI state comes from the spec, whose invariant presupposes a
continue button that starts disabled and is enabled only by a copy
click.  Nothing is selected, the clipboard starts empty, no legacy copy
was attempted, and no navigation has happened. -/
def initState (target v0 : String) : PageState :=
  { target := target, inputValue := v0, copyLabel := "Copy",
    contDisabled := true, selected := false, clipboard := none,
    execCopyAttempts := 0, nav := none }

/-- Whether an event is a click of the copy button. -/
def isCopyClick : Event → Bool
  | Event.clickCopy _ _ => true
  | _ => false

/- ### Helper lemmas -/

/-- A list lookup with default lands in the list or is the default. -/
lemma list_getD_mem_or {α : Type} (l : List α) (n : Nat) (d : α) :
    l.getD n d ∈ l ∨ l.getD n d = d := by
  induction l generalizing n with
  | nil => right; simp [List.getD_nil]
  | cons a t ih =>
    cases n with
    | zero => left; simp [List.getD_cons_zero]
    | succ m =>
      rw [List.getD_cons_succ]
      rcases ih m with h | h
      · left; exact List.mem_cons_of_mem _ h
      · right; exact h

/-- Every output of `hexDigit` is an uppercase hexadecimal digit. -/
lemma hexDigit_mem (n : Nat) : hexDigit n ∈ hexChars := by
  unfold hexDigit
  rcases list_getD_mem_or hexChars n '0' with h | h
  · exact h
  · rw [h]; decide

/-- Characters of a percent-encoded byte are a percent sign or hex digits. -/
lemma mem_percentByte (b : Nat) (x : Char) (hx : x ∈ percentByte b) :
    x ∈ ('%' :: hexChars) := by
  simp only [percentByte, List.mem_cons, List.not_mem_nil, or_false] at hx
  rcases hx with rfl | rfl | rfl
  · exact List.mem_cons_self _ _
  · exact List.mem_cons_of_mem _ (hexDigit_mem _)
  · exact List.mem_cons_of_mem _ (hexDigit_mem _)

/-- Characters produced by `encodeChar` are either unescaped characters
or come from a percent-encoded byte. -/
lemma mem_encodeChar (c x : Char) (hx : x ∈ encodeChar c) :
    isUnescaped x = true ∨ x ∈ ('%' :: hexChars) := by
  unfold encodeChar at hx
  split at hx
  · left
    rw [List.mem_singleton] at hx
    subst hx
    assumption
  · right
    obtain ⟨l, hl, hxl⟩ := List.mem_flatten.mp hx
    obtain ⟨b, hb, rfl⟩ := List.mem_map.mp hl
    exact mem_percentByte b x hxl

/-- No character of an `encodeURIComponent` output is a raw space,
ampersand, or hash. -/
lemma encodeURIComponent_avoids (v : String) (x : Char)
    (hx : x ∈ (encodeURIComponent v).data) :
    x ≠ ' ' ∧ x ≠ '&' ∧ x ≠ '#' := by
  have hx' : x ∈ (v.data.map encodeChar).flatten := hx
  obtain ⟨l, hl, hxl⟩ := List.mem_flatten.mp hx'
  obtain ⟨c, hc, rfl⟩ := List.mem_map.mp hl
  rcases mem_encodeChar c x hxl with h | h
  · refine ⟨?_, ?_, ?_⟩ <;> rintro rfl <;> revert h <;> decide
  · refine ⟨?_, ?_, ?_⟩ <;> rintro rfl <;> revert h <;> decide

/- ### Claims -/

/-- Claim C1: for every resolved target URL and every input field value,
clicking the continue button navigates the page to the target
concatenated with a separator, the literal 'discord_id=', and the
percent-encoding of the input value, where the separator is '&' if the
target contains a '?' character and '?' otherwise.  Stated for both
variants over the event-step machine. -/
theorem continue_navigates_discord_id (stA stB : PageState)
    (hA : stA.nav = none) (hB : stB.nav = none) :
    (stepA stA Event.clickContinue).nav =
      some (stA.target ++ (if stA.target.data.contains '?' then "&" else "?") ++
        "discord_id=" ++ encodeURIComponent stA.inputValue) ∧
    (stepB stB Event.clickContinue).nav =
      some (stB.target ++ (if stB.target.data.contains '?' then "&" else "?") ++
        "discord_id=" ++ encodeURIComponent stB.inputValue) := by
  constructor <;> simp [stepA, stepB, hA, hB, destUrlA, destUrlB]

/-- Witness for C1 at the spec's two scenarios: a target without '?'
takes separator '?', a target with '?' takes separator '&'. -/
theorem continue_navigates_discord_id_witness :
    (stepA (initState "https://example.com/welcome" "12345")
        Event.clickContinue).nav =
      some ("https://example.com/welcome" ++
        (if ("https://example.com/welcome").data.contains '?' then "&" else "?") ++
        "discord_id=" ++ encodeURIComponent "12345") ∧
    (stepB (initState "https://example.com/welcome?ref=abc" "98765")
        Event.clickContinue).nav =
      some ("https://example.com/welcome?ref=abc" ++
        (if ("https://example.com/welcome?ref=abc").data.contains '?' then "&" else "?") ++
        "discord_id=" ++ encodeURIComponent "98765") :=
  continue_navigates_discord_id
    (initState "https://example.com/welcome" "12345")
    (initState "https://example.com/welcome?ref=abc" "98765") rfl rfl

/-- Claim C2 counterexample: in src/Id.js, when the script tag is found
but carries no data-target attribute, the resolved TARGET is null — not
the empty string — and the continue click throws at `TARGET.includes`,
so it does not navigate anywhere, contradicting the claim at the
concrete input value "xyz". -/
theorem absent_attribute_counterexample :
    ¬ (resolveTargetA (some none) = some "" ∧
       contClickA (resolveTargetA (some none)) "xyz" =
         some ("?" ++ "discord_id=" ++ encodeURIComponent "xyz")) := by
  decide

/-- Claim C2 amended: in part_000 an absent attribute resolves to the
empty string and the continue click navigates to the query-only URL; in
Id.js the same holds only when no matching script tag is found at all —
when the tag is found without the attribute, TARGET resolves to null and
the continue click aborts with no navigation. -/
theorem absent_attribute_amended (v : String) :
    resolveTargetB none = "" ∧
    contClickB (resolveTargetB none) v =
      "?" ++ "discord_id=" ++ encodeURIComponent v ∧
    resolveTargetA none = some "" ∧
    contClickA (resolveTargetA none) v =
      some ("?" ++ "discord_id=" ++ encodeURIComponent v) ∧
    resolveTargetA (some none) = none ∧
    contClickA (resolveTargetA (some none)) v = none :=
  ⟨rfl, rfl, rfl, rfl, rfl, rfl⟩

/-- Claim C3: for any input value and every reachable clipboard outcome
(resolved, rejected, or API absent), a copy click leaves the copy
button's label at one of the two confirmation strings of that variant
and clears the continue button's disabled flag. -/
theorem copy_label_and_enable (st : PageState) (o : ClipOutcome) (k : Bool) :
    ((copyStepA o k st).copyLabel = "Copied!" ∨
      (copyStepA o k st).copyLabel = "Copied (fallback)!") ∧
    (copyStepA o k st).contDisabled = false ∧
    ((copyStepB o st).copyLabel = "Copied!" ∨
      (copyStepB o st).copyLabel = "Select & copy") ∧
    (copyStepB o st).contDisabled = false := by
  cases o <;> simp [copyStepA, copyStepB]

/-- Claim C4 counterexample: in the part_000 variant, a rejected
clipboard write does not attempt the legacy copy command at all — the
count of `document.execCommand` invocations stays at zero instead of
rising by one as the claim requires. -/
theorem fallback_no_exec_counterexample :
    ¬ ((copyStepB ClipOutcome.rejected (initState "T" "abc")).execCopyAttempts =
        (initState "T" "abc").execCopyAttempts + 1) := by
  decide

/-- Claim C4 amended: when the clipboard write fails, Id.js selects the
input's text, attempts the legacy copy command exactly once, and sets
the label to 'Copied (fallback)!' regardless of whether the legacy
command succeeds; part_000 selects the input's text and sets the label
to 'Select & copy' without attempting the legacy copy command. -/
theorem fallback_behaviour_amended (st : PageState) (o : ClipOutcome)
    (k : Bool) (h : o ≠ ClipOutcome.resolved) :
    (copyStepA o k st).selected = true ∧
    (copyStepA o k st).execCopyAttempts = st.execCopyAttempts + 1 ∧
    (copyStepA o k st).copyLabel = "Copied (fallback)!" ∧
    (copyStepB o st).selected = true ∧
    (copyStepB o st).execCopyAttempts = st.execCopyAttempts ∧
    (copyStepB o st).copyLabel = "Select & copy" := by
  cases o with
  | resolved => exact absurd rfl h
  | rejected => simp [copyStepA, copyStepB]
  | apiAbsent => simp [copyStepA, copyStepB]

/-- Witness for the amended C4 at a rejected write on a fresh page. -/
theorem fallback_behaviour_amended_witness :
    (copyStepA ClipOutcome.rejected true (initState "T" "abc")).selected = true ∧
    (copyStepA ClipOutcome.rejected true (initState "T" "abc")).execCopyAttempts =
      (initState "T" "abc").execCopyAttempts + 1 ∧
    (copyStepA ClipOutcome.rejected true (initState "T" "abc")).copyLabel =
      "Copied (fallback)!" ∧
    (copyStepB ClipOutcome.rejected (initState "T" "abc")).selected = true ∧
    (copyStepB ClipOutcome.rejected (initState "T" "abc")).execCopyAttempts =
      (initState "T" "abc").execCopyAttempts ∧
    (copyStepB ClipOutcome.rejected (initState "T" "abc")).copyLabel =
      "Select & copy" :=
  fallback_behaviour_amended (initState "T" "abc") ClipOutcome.rejected true
    (by decide)

/-- A step of the Id.js machine never sets the disabled flag back. -/
lemma stepA_enabled_stays (st : PageState) (e : Event)
    (h : st.contDisabled = false) : (stepA st e).contDisabled = false := by
  unfold stepA
  split
  · exact h
  · cases e with
    | setInput v => exact h
    | clickCopy o k => cases o <;> simp [copyStepA]
    | clickContinue => exact h

/-- A step of the part_000 machine never sets the disabled flag back. -/
lemma stepB_enabled_stays (st : PageState) (e : Event)
    (h : st.contDisabled = false) : (stepB st e).contDisabled = false := by
  unfold stepB
  split
  · exact h
  · cases e with
    | setInput v => exact h
    | clickCopy o k => cases o <;> simp [copyStepB]
    | clickContinue => exact h

/-- Once enabled, the continue button stays enabled over any run (Id.js). -/
lemma runA_enabled_stays (st : PageState) (evs : List Event)
    (h : st.contDisabled = false) : (runA st evs).contDisabled = false := by
  induction evs generalizing st with
  | nil => exact h
  | cons e es ih =>
    rw [runA, List.foldl_cons]
    exact ih (stepA st e) (stepA_enabled_stays st e h)

/-- Once enabled, the continue button stays enabled over any run (part_000). -/
lemma runB_enabled_stays (st : PageState) (evs : List Event)
    (h : st.contDisabled = false) : (runB st evs).contDisabled = false := by
  induction evs generalizing st with
  | nil => exact h
  | cons e es ih =>
    rw [runB, List.foldl_cons]
    exact ih (stepB st e) (stepB_enabled_stays st e h)

/-- Events other than a copy click leave the disabled flag alone (Id.js). -/
lemma stepA_no_copy_disabled (st : PageState) (e : Event)
    (h : isCopyClick e = false) :
    (stepA st e).contDisabled = st.contDisabled := by
  cases e with
  | setInput v => unfold stepA; split <;> rfl
  | clickCopy o k => simp [isCopyClick] at h
  | clickContinue => unfold stepA; split <;> rfl

/-- Events other than a copy click leave the disabled flag alone (part_000). -/
lemma stepB_no_copy_disabled (st : PageState) (e : Event)
    (h : isCopyClick e = false) :
    (stepB st e).contDisabled = st.contDisabled := by
  cases e with
  | setInput v => unfold stepB; split <;> rfl
  | clickCopy o k => simp [isCopyClick] at h
  | clickContinue => unfold stepB; split <;> rfl

/-- If a run of the Id.js machine ends enabled but started disabled,
some event of the run was a copy click. -/
lemma runA_disabled_until_copy (st : PageState) (evs : List Event)
    (h0 : st.contDisabled = true)
    (h1 : (runA st evs).contDisabled = false) :
    evs.any isCopyClick = true := by
  induction evs generalizing st with
  | nil =>
    rw [runA, List.foldl_nil, h0] at h1
    exact absurd h1 (by decide)
  | cons e es ih =>
    rw [runA, List.foldl_cons] at h1
    rw [List.any_cons]
    cases hc : isCopyClick e with
    | true => simp
    | false =>
      have h0' : (stepA st e).contDisabled = true := by
        rw [stepA_no_copy_disabled st e hc]; exact h0
      have hrec := ih (stepA st e) h0' h1
      simp [hrec]

/-- If a run of the part_000 machine ends enabled but started disabled,
some event of the run was a copy click. -/
lemma runB_disabled_until_copy (st : PageState) (evs : List Event)
    (h0 : st.contDisabled = true)
    (h1 : (runB st evs).contDisabled = false) :
    evs.any isCopyClick = true := by
  induction evs generalizing st with
  | nil =>
    rw [runB, List.foldl_nil, h0] at h1
    exact absurd h1 (by decide)
  | cons e es ih =>
    rw [runB, List.foldl_cons] at h1
    rw [List.any_cons]
    cases hc : isCopyClick e with
    | true => simp
    | false =>
      have h0' : (stepB st e).contDisabled = true := by
        rw [stepB_no_copy_disabled st e hc]; exact h0
      have hrec := ih (stepB st e) h0' h1
      simp [hrec]

/-- Claim C5: in every state reachable from the initial page state, the
continue button is enabled only if at least one copy click occurred in
the event history, and once enabled it is never disabled again by any
further events, in both variants. -/
theorem continue_enabled_gating (t v0 : String) (evs : List Event)
    (st : PageState) :
    ((runA (initState t v0) evs).contDisabled = false →
      evs.any isCopyClick = true) ∧
    ((runB (initState t v0) evs).contDisabled = false →
      evs.any isCopyClick = true) ∧
    (st.contDisabled = false → (runA st evs).contDisabled = false) ∧
    (st.contDisabled = false → (runB st evs).contDisabled = false) :=
  ⟨fun h => runA_disabled_until_copy (initState t v0) evs rfl h,
   fun h => runB_disabled_until_copy (initState t v0) evs rfl h,
   fun h => runA_enabled_stays st evs h,
   fun h => runB_enabled_stays st evs h⟩

/-- Witness for C5: a single copy click enables continue and is
reported by the gating theorem; a later continue click keeps it
enabled. -/
theorem continue_enabled_gating_witness :
    [Event.clickCopy ClipOutcome.resolved true].any isCopyClick = true ∧
    (runA (copyStepA ClipOutcome.resolved true (initState "t" "v"))
      [Event.clickContinue]).contDisabled = false ∧
    (runB (copyStepB ClipOutcome.resolved (initState "t" "v"))
      [Event.clickContinue]).contDisabled = false := by
  have h1 := continue_enabled_gating "t" "v"
    [Event.clickCopy ClipOutcome.resolved true] (initState "t" "v")
  have h2 := continue_enabled_gating "t" "v" [Event.clickContinue]
    (copyStepA ClipOutcome.resolved true (initState "t" "v"))
  have h3 := continue_enabled_gating "t" "v" [Event.clickContinue]
    (copyStepB ClipOutcome.resolved (initState "t" "v"))
  exact ⟨h1.1 (by decide), h2.2.2.1 (by decide), h3.2.2.2 (by decide)⟩

/-- Claim C6: the destination URL computed by either continue handler
ends in the `encodeURIComponent` image of the input value, in which no
raw space, ampersand, or hash survives: each such character appears as
its percent-encoding ('%20', '%26', '%23'). -/
theorem encoding_correctness (t v : String) :
    destUrlA t v =
      (t ++ (if t.data.contains '?' then "&" else "?") ++ "discord_id=") ++
        encodeURIComponent v ∧
    destUrlB t v =
      (t ++ (if t.data.contains '?' then "&" else "?") ++ "discord_id=") ++
        encodeURIComponent v ∧
    (∀ x ∈ (encodeURIComponent v).data, x ≠ ' ' ∧ x ≠ '&' ∧ x ≠ '#') ∧
    encodeURIComponent " " = "%20" ∧
    encodeURIComponent "&" = "%26" ∧
    encodeURIComponent "#" = "%23" ∧
    encodeURIComponent "a b&c#d" = "a%20b%26c%23d" :=
  ⟨rfl, rfl, fun x hx => encodeURIComponent_avoids v x hx,
   by decide, by decide, by decide, by decide⟩

/-- Witness for C6: the percent sign present in the encoding of a space
is itself none of the three raw characters. -/
theorem encoding_correctness_witness :
    ('%' : Char) ≠ ' ' ∧ ('%' : Char) ≠ '&' ∧ ('%' : Char) ≠ '#' :=
  (encoding_correctness "T" " ").2.2.1 '%' (by decide)

/-- Claim C7: both handlers read the input field live at their own
click.  After a copy click, an edit of the field, and a continue click,
the navigation URL uses the edited value while the clipboard still holds
the value read at copy time, in both variants. -/
theorem live_input_read (st : PageState) (v2 : String) (k : Bool)
    (h : st.nav = none) :
    (runA st [Event.clickCopy ClipOutcome.resolved k, Event.setInput v2,
        Event.clickContinue]).nav = some (destUrlA st.target v2) ∧
    (runA st [Event.clickCopy ClipOutcome.resolved k, Event.setInput v2,
        Event.clickContinue]).clipboard = some st.inputValue ∧
    (runB st [Event.clickCopy ClipOutcome.resolved k, Event.setInput v2,
        Event.clickContinue]).nav = some (destUrlB st.target v2) ∧
    (runB st [Event.clickCopy ClipOutcome.resolved k, Event.setInput v2,
        Event.clickContinue]).clipboard = some st.inputValue := by
  simp [runA, runB, stepA, stepB, copyStepA, copyStepB, h]

/-- Witness for C7: copy "old", edit to "new", continue — the page
navigates with "new" while the clipboard holds "old". -/
theorem live_input_read_witness :
    (runA (initState "T" "old") [Event.clickCopy ClipOutcome.resolved true,
        Event.setInput "new", Event.clickContinue]).nav =
      some (destUrlA "T" "new") ∧
    (runA (initState "T" "old") [Event.clickCopy ClipOutcome.resolved true,
        Event.setInput "new", Event.clickContinue]).clipboard = some "old" ∧
    (runB (initState "T" "old") [Event.clickCopy ClipOutcome.resolved true,
        Event.setInput "new", Event.clickContinue]).nav =
      some (destUrlB "T" "new") ∧
    (runB (initState "T" "old") [Event.clickCopy ClipOutcome.resolved true,
        Event.setInput "new", Event.clickContinue]).clipboard = some "old" :=
  live_input_read (initState "T" "old") "new" true rfl

/-- Claim C8: clicking copy any positive number of times with an
unchanged input value and an unchanged clipboard outcome yields the same
button label as a single click, and leaves the continue button enabled
after every click, in both variants. -/
theorem copy_repeat_idempotent (st : PageState) (o : ClipOutcome)
    (k : Bool) (n : Nat) (h : 1 ≤ n) :
    ((copyStepA o k)^[n] st).copyLabel = (copyStepA o k st).copyLabel ∧
    ((copyStepA o k)^[n] st).contDisabled = false ∧
    ((copyStepB o)^[n] st).copyLabel = (copyStepB o st).copyLabel ∧
    ((copyStepB o)^[n] st).contDisabled = false := by
  obtain ⟨m, rfl⟩ : ∃ m, n = m + 1 := ⟨n - 1, (Nat.succ_pred_eq_of_pos h).symm⟩
  simp only [Function.iterate_succ_apply']
  cases o <;> simp [copyStepA, copyStepB]

/-- Witness for C8 with two consecutive rejected-outcome clicks. -/
theorem copy_repeat_idempotent_witness :
    ((copyStepA ClipOutcome.rejected false)^[2] (initState "T" "v")).copyLabel =
      (copyStepA ClipOutcome.rejected false (initState "T" "v")).copyLabel ∧
    ((copyStepA ClipOutcome.rejected false)^[2] (initState "T" "v")).contDisabled =
      false ∧
    ((copyStepB ClipOutcome.rejected)^[2] (initState "T" "v")).copyLabel =
      (copyStepB ClipOutcome.rejected (initState "T" "v")).copyLabel ∧
    ((copyStepB ClipOutcome.rejected)^[2] (initState "T" "v")).contDisabled =
      false :=
  copy_repeat_idempotent (initState "T" "v") ClipOutcome.rejected false 2
    (by decide)

/-- Claim C9: the continue handlers of the two variants are
extensionally equal — for every resolved target URL and input value they
compute the same destination URL, and the step machines navigate to the
same address from any common state. -/
theorem continue_handlers_agree (t v : String) (st : PageState) :
    destUrlA t v = destUrlB t v ∧
    (stepA st Event.clickContinue).nav = (stepB st Event.clickContinue).nav := by
  refine ⟨rfl, ?_⟩
  by_cases hn : st.nav.isSome <;> simp [stepA, stepB, hn, destUrlA, destUrlB]

/-- Claim C10: a copy click leaves the input field's text and the
resolved target URL (and the navigation state) unchanged on both the
success and the fallback path, in both variants. -/
theorem copy_click_frame (st : PageState) (o : ClipOutcome) (k : Bool) :
    (copyStepA o k st).inputValue = st.inputValue ∧
    (copyStepA o k st).target = st.target ∧
    (copyStepA o k st).nav = st.nav ∧
    (copyStepB o st).inputValue = st.inputValue ∧
    (copyStepB o st).target = st.target ∧
    (copyStepB o st).nav = st.nav := by
  cases o <;> simp [copyStepA, copyStepB]
